import Mathlib

/-!
Shallow embedding of the `local-cache` in-memory TTL cache
(`packages/local-cache/src/index.ts`) and of the cache-aside DynamoDB
adapter `CachedDynamoWrapper` (`cached-dynamo`), together with proofs of
the frozen claims about them.

Time is passed explicitly: `nowMs` is the current clock in milliseconds
(JS `Date.now()`), and TTL fields stored in cache items are absolute
timestamps in seconds (`Math.floor(Date.now() / 1000)`), exactly as in
the source.  The clock is assumed monotone (`Date.now()` never goes
backwards), which is where `Nat` subtraction in `cleanup` is faithful.
-/

/-- `CacheItem` from `local-cache/src/interfaces.ts`: the stored full
(prefixed) key, the value, and the optional absolute expiry timestamp in
seconds (`ttl`). -/
structure CacheItem (V : Type) where
  key : String
  value : V
  ttl : Option Nat
deriving Repr, DecidableEq

/-- The expiry test `item.ttl && item.ttl < now` used by `get`, `query`
and `cleanup`: a stored `ttl` of `0` is falsy in JS, so such an item
never expires.  (`set` never stores `ttl = 0`, see `mkTtl`.) -/
def ttlExpired (ttl : Option Nat) (nowSeconds : Nat) : Bool :=
  match ttl with
  | some t => t != 0 && decide (t < nowSeconds)
  | none => false

/-- JS `Map.prototype.set`: replace in place when the key is present
(preserving insertion order), append otherwise. -/
def mapSet {V : Type} (m : List (String × CacheItem V)) (k : String) (it : CacheItem V) :
    List (String × CacheItem V) :=
  if m.any (fun p => p.1 == k) then
    m.map (fun p => if p.1 == k then (k, it) else p)
  else
    m ++ [(k, it)]

/-- JS `Map.prototype.delete` (state part): remove the entry for `k`. -/
def mapDelete {V : Type} (m : List (String × CacheItem V)) (k : String) :
    List (String × CacheItem V) :=
  m.filter (fun p => p.1 != k)

/-- The mutable state of one `LocalCache` instance: the key→item map
(modelled as an association list mirroring a JS `Map`), the `lastCleanup`
clock in ms, and the three immutable construction options
(`cleanupInterval` in ms, `enableLogging`, key prefix `pfx`). -/
structure LocalCache (V : Type) where
  cache : List (String × CacheItem V)
  lastCleanup : Nat
  cleanupInterval : Nat
  enableLogging : Bool
  pfx : String
deriving Repr, DecidableEq

/-- `buildKey`: `this.prefix ? prefix + key : key` (empty string is falsy). -/
def LocalCache.buildKey {V : Type} (c : LocalCache V) (key : String) : String :=
  if c.pfx = "" then key else c.pfx ++ key

/-- Lazy cleanup: a no-op while `now - lastCleanup < cleanupInterval`,
otherwise evict every expired entry and stamp `lastCleanup = now`. -/
def LocalCache.cleanup {V : Type} (c : LocalCache V) (nowMs : Nat) : LocalCache V :=
  if nowMs - c.lastCleanup < c.cleanupInterval then c
  else
    { c with
      cache := c.cache.filter (fun p => !ttlExpired p.2.ttl (nowMs / 1000)),
      lastCleanup := nowMs }

/-- `get`: trigger lazy cleanup, look the full key up; an expired entry is
deleted and reported absent; otherwise the value is returned.  The
(possibly mutated) instance state is returned alongside the result. -/
def LocalCache.get {V : Type} (c : LocalCache V) (nowMs : Nat) (key : String) :
    LocalCache V × Option V :=
  let c1 := c.cleanup nowMs
  let fullKey := c1.buildKey key
  match List.lookup fullKey c1.cache with
  | some item =>
      if ttlExpired item.ttl (nowMs / 1000) then
        ({ c1 with cache := mapDelete c1.cache fullKey }, none)
      else (c1, some item.value)
  | none => (c1, none)

/-- `ttlSeconds ? Math.floor(Date.now() / 1000) + ttlSeconds : undefined`:
`0` is falsy, so a TTL of `0` stores no expiry at all. -/
def mkTtl (nowSeconds : Nat) (ttlSeconds : Option Nat) : Option Nat :=
  match ttlSeconds with
  | some t => if t = 0 then none else some (nowSeconds + t)
  | none => none

/-- `set`: trigger lazy cleanup; `if (!value)` (value absent or falsy)
delete the entry instead of storing; otherwise store/overwrite the item
under the full key.  JS truthiness of the value type is supplied as the
`truthy` parameter. -/
def LocalCache.set {V : Type} (c : LocalCache V) (truthy : V → Bool) (nowMs : Nat)
    (key : String) (value : Option V) (ttlSeconds : Option Nat) : LocalCache V :=
  let c1 := c.cleanup nowMs
  let fullKey := c1.buildKey key
  match value with
  | none => { c1 with cache := mapDelete c1.cache fullKey }
  | some v =>
      if truthy v then
        { c1 with
          cache := mapSet c1.cache fullKey ⟨fullKey, v, mkTtl (nowMs / 1000) ttlSeconds⟩ }
      else { c1 with cache := mapDelete c1.cache fullKey }

/-- `delete`: no cleanup; remove the entry, report whether it existed. -/
def LocalCache.delete {V : Type} (c : LocalCache V) (key : String) :
    LocalCache V × Bool :=
  let fullKey := c.buildKey key
  ({ c with cache := mapDelete c.cache fullKey },
   (List.lookup fullKey c.cache).isSome)

/-- `clear`: empty this instance's map. -/
def LocalCache.clear {V : Type} (c : LocalCache V) : LocalCache V :=
  { c with cache := [] }

/-- `size`: trigger lazy cleanup, return the raw entry count of the map. -/
def LocalCache.size {V : Type} (c : LocalCache V) (nowMs : Nat) : LocalCache V × Nat :=
  let c1 := c.cleanup nowMs
  (c1, c1.cache.length)

/-- `has`: `this.get(key) !== undefined`. -/
def LocalCache.has {V : Type} (c : LocalCache V) (nowMs : Nat) (key : String) :
    LocalCache V × Bool :=
  let r := c.get nowMs key
  (r.1, r.2.isSome)

/-- Well-formedness of a cache state: the underlying association list has
no duplicate keys, as is true of every state reachable through a JS `Map`. -/
def LocalCache.WF {V : Type} (c : LocalCache V) : Prop :=
  (c.cache.map Prod.fst).Nodup

/-!
Cache-aside adapter `CachedDynamoWrapper` (`cached-dynamo/src/index.ts`)
and its helpers (`cached-dynamo/src/helpers.ts`).

The remote store (`DynamoWrapper`, i.e. the `super.*` calls) is an
external collaborator performing network I/O; following the spec's
interface model it is abstracted as oracle arguments: point reads as a
function from the request to the response, writes as the reported
success boolean.  Each operation additionally reports how it used the
oracle (number of remote reads, or the list of batch calls issued), so
that call-count properties are statable.
-/

/-- A remote item / a batch-request key: attribute name → attribute
value (key attribute values already in their string form, as the cache
key derivation only ever uses their template-literal interpolation). -/
abbrev Item := List (String × String)

/-- Items are JS objects, hence always truthy (`if (cachedItem)`,
`if (!value)`). -/
def itemTruthy : Item → Bool := fun _ => true

/-- Template-literal interpolation of a possibly-`undefined` attribute
value. -/
def jsTemplate (v : Option String) : String :=
  match v with
  | some s => s
  | none => "undefined"

/-- `generateCacheKey` from `cached-dynamo/src/helpers.ts`:
`partitionValue` alone when `sortValue === undefined`, otherwise
`partitionValue:sortValue`. -/
def generateCacheKey (partitionValue : String) (sortValue : Option String) : String :=
  match sortValue with
  | some sv => partitionValue ++ ":" ++ sv
  | none => partitionValue

/-- `extractKeys` from `cached-dynamo/src/helpers.ts`:
`partitionValue = item[partitionKey]`,
`sortValue = sortKey ? item[sortKey] : undefined`. -/
def extractKeys (item : Item) (partitionKey : String) (sortKey : Option String) :
    Option String × Option String :=
  (List.lookup partitionKey item, sortKey.bind (fun sk => List.lookup sk item))

/-- The adapter's resolved cache configuration (the `prefix` and
`instanceName` members configure the backing `LocalCache` instance and
live there). -/
structure CacheConfig where
  enabled : Bool
  ttl : Option Nat
deriving Repr, DecidableEq

/-- `CachedDynamoWrapper` state: the backing `LocalCache` instance, the
resolved cache config, and the table's key attribute names. -/
structure Adapter where
  cache : LocalCache Item
  cacheConfig : CacheConfig
  partitionKey : String
  sortKey : Option String
deriving Repr, DecidableEq

/-- `getCacheKey`: delegates to `generateCacheKey` (the `LocalCache`
prefix is handled inside the cache instance). -/
def Adapter.getCacheKey (_a : Adapter) (partitionValue : String)
    (sortValue : Option String) : String :=
  generateCacheKey partitionValue sortValue

/-- `get`: consult the cache when enabled and return a hit without any
remote read; otherwise read the remote store once and, when enabled and
the item was found, populate the cache with the configured TTL.  The
`Nat` component counts remote reads. -/
def Adapter.get (a : Adapter) (remote : String → Option String → Option Item)
    (nowMs : Nat) (partitionValue : String) (sortValue : Option String) :
    Adapter × Option Item × Nat :=
  let cacheKey := a.getCacheKey partitionValue sortValue
  if a.cacheConfig.enabled then
    let r := a.cache.get nowMs cacheKey
    match r.2 with
    | some cachedItem => ({ a with cache := r.1 }, some cachedItem, 0)
    | none =>
        match remote partitionValue sortValue with
        | some it =>
            ({ a with
               cache := r.1.set itemTruthy nowMs cacheKey (some it) a.cacheConfig.ttl },
             some it, 1)
        | none => ({ a with cache := r.1 }, none, 1)
  else
    (a, remote partitionValue sortValue, 1)

/-- `put`: the remote write always happens first (its reported outcome
is the `remoteOk` oracle); only on success with caching enabled is the
cache entry overwritten, under the key derived from the item's own key
attributes, with the configured TTL. -/
def Adapter.put (a : Adapter) (remoteOk : Bool) (nowMs : Nat) (item : Item) :
    Adapter × Bool :=
  if remoteOk && a.cacheConfig.enabled then
    let ek := extractKeys item a.partitionKey a.sortKey
    let cacheKey := a.getCacheKey (jsTemplate ek.1) ek.2
    ({ a with
       cache := a.cache.set itemTruthy nowMs cacheKey (some item) a.cacheConfig.ttl },
     remoteOk)
  else (a, remoteOk)

/-- `update`: the remote update happens first; only on success with
caching enabled is the corresponding cache entry deleted (the
`attributes` and `options` arguments flow to the remote store only). -/
def Adapter.update (a : Adapter) (remoteOk : Bool)
    (partitionValue : String) (sortValue : Option String) : Adapter × Bool :=
  if remoteOk && a.cacheConfig.enabled then
    let cacheKey := a.getCacheKey partitionValue sortValue
    ({ a with cache := (a.cache.delete cacheKey).1 }, remoteOk)
  else (a, remoteOk)

/-- `delete`: remote delete first; the cache entry is evicted whenever
caching is enabled, regardless of the reported remote outcome. -/
def Adapter.delete (a : Adapter) (remoteOk : Bool)
    (partitionValue : String) (sortValue : Option String) : Adapter × Bool :=
  if a.cacheConfig.enabled then
    let cacheKey := a.getCacheKey partitionValue sortValue
    ({ a with cache := (a.cache.delete cacheKey).1 }, remoteOk)
  else (a, remoteOk)

/-- One cache write of a fetched/stored item, under the key derived from
the item's own key attributes (shared by `put`, `query`, `batchGet`,
`batchPut`). -/
def cacheWriteItem (pk : String) (sk : Option String) (ttl : Option Nat)
    (nowMs : Nat) (c : LocalCache Item) (item : Item) : LocalCache Item :=
  let ek := extractKeys item pk sk
  let cacheKey := generateCacheKey (jsTemplate ek.1) ek.2
  c.set itemTruthy nowMs cacheKey (some item) ttl

/-- The `batchGet` cache-probe loop: split the requested keys into cache
hits (in input order) and missing keys (in input order), threading the
cache state through each `get`. -/
def partitionKeys (pk : String) (sk : Option String) (nowMs : Nat) :
    LocalCache Item → List Item → LocalCache Item × List Item × List Item
  | c, [] => (c, [], [])
  | c, key :: rest =>
      let pv := jsTemplate (List.lookup pk key)
      let sv := sk.bind (fun s => List.lookup s key)
      let r := c.get nowMs (generateCacheKey pv sv)
      let rec1 := partitionKeys pk sk nowMs r.1 rest
      match r.2 with
      | some it => (rec1.1, it :: rec1.2.1, rec1.2.2)
      | none => (rec1.1, rec1.2.1, key :: rec1.2.2)

/-- `batchGet`: when enabled, probe the cache per key; the missing keys
(if any) are fetched from the remote store in ONE batch call, the
fetched items are written to the cache, and the result is the cache hits
followed by the fetched items.  The last component logs each remote
batch call's key list. -/
def Adapter.batchGet (a : Adapter) (remote : List Item → List Item)
    (nowMs : Nat) (keys : List Item) : Adapter × List Item × List (List Item) :=
  if a.cacheConfig.enabled then
    let part := partitionKeys a.partitionKey a.sortKey nowMs a.cache keys
    if part.2.2.isEmpty then ({ a with cache := part.1 }, part.2.1, [])
    else
      let fetched := remote part.2.2
      let c2 := fetched.foldl
        (cacheWriteItem a.partitionKey a.sortKey a.cacheConfig.ttl nowMs) part.1
      ({ a with cache := c2 }, part.2.1 ++ fetched, [part.2.2])
  else
    if keys.isEmpty then (a, [], [])
    else (a, remote keys, [keys])

/-- `batchPut`: remote batch write first; on success with caching
enabled every item is written to the cache. -/
def Adapter.batchPut (a : Adapter) (remoteOk : Bool) (nowMs : Nat)
    (items : List Item) : Adapter × Bool :=
  if remoteOk && a.cacheConfig.enabled then
    ({ a with
       cache := items.foldl
         (cacheWriteItem a.partitionKey a.sortKey a.cacheConfig.ttl nowMs) a.cache },
     remoteOk)
  else (a, remoteOk)

/-- `clearCache`: empties the backing cache instance — but only when
caching is enabled. -/
def Adapter.clearCache (a : Adapter) : Adapter :=
  if a.cacheConfig.enabled then { a with cache := a.cache.clear } else a

/-- `getCacheSize`: `this.cacheConfig.enabled ? this.cache.size() : 0`. -/
def Adapter.getCacheSize (a : Adapter) (nowMs : Nat) : Adapter × Nat :=
  if a.cacheConfig.enabled then
    let r := a.cache.size nowMs
    ({ a with cache := r.1 }, r.2)
  else (a, 0)

/-- `setCacheEnabled`: flips the flag, touching nothing else. -/
def Adapter.setCacheEnabled (a : Adapter) (enabled : Bool) : Adapter :=
  { a with cacheConfig := { a.cacheConfig with enabled := enabled } }

/-- `isCacheEnabled`. -/
def Adapter.isCacheEnabled (a : Adapter) : Bool :=
  a.cacheConfig.enabled

/-- The cache key `put`/`batchPut`/`query` derive from an item's own key
attribute values (`getCacheKey` over `extractKeys`). -/
def itemCacheKey (a : Adapter) (item : Item) : String :=
  generateCacheKey (jsTemplate (extractKeys item a.partitionKey a.sortKey).1)
    (extractKeys item a.partitionKey a.sortKey).2

/-- Specification-side notion for C8: the number of live (non-expired)
entries of a cache state at a time in seconds — entries whose
expiration has already passed (by the cache's own strict expiry rule)
are not counted. -/
def specLiveCount {V : Type} (c : LocalCache V) (nowSeconds : Nat) : Nat :=
  (c.cache.filter (fun p => !ttlExpired p.2.ttl nowSeconds)).length

/-! Association-list lemmas for the JS `Map` model. -/

theorem lookup_cons {β : Type} (k a : String) (b : β) (l : List (String × β)) :
    List.lookup k ((a, b) :: l) = if k == a then some b else List.lookup k l := by
  cases h : k == a <;> simp [List.lookup, h]

theorem lookup_append {β : Type} (k : String) (l1 l2 : List (String × β)) :
    List.lookup k (l1 ++ l2) =
      ((List.lookup k l1).orElse fun _ => List.lookup k l2) := by
  induction l1 with
  | nil => simp [List.lookup]
  | cons p rest ih =>
    obtain ⟨a, b⟩ := p
    rw [List.cons_append, lookup_cons, lookup_cons]
    cases h : k == a <;> simp [ih]

theorem any_key_eq_lookup_isSome {β : Type} (k : String) (l : List (String × β)) :
    (l.any fun p => p.1 == k) = (List.lookup k l).isSome := by
  induction l with
  | nil => simp [List.lookup]
  | cons p rest ih =>
    obtain ⟨a, b⟩ := p
    rw [List.any_cons, lookup_cons]
    by_cases h : k = a
    · subst h; simp
    · have h1 : (a == k) = false := by simp [h, Ne.symm h]
      have h2 : (k == a) = false := by simp [h]
      simp [h1, h2, ih]

theorem lookup_map_replace {V : Type} (k k' : String) (it : CacheItem V)
    (l : List (String × CacheItem V)) :
    List.lookup k' (l.map fun p => if p.1 == k then (k, it) else p) =
      if k' == k then (List.lookup k l).map (fun _ => it) else List.lookup k' l := by
  induction l with
  | nil => cases h : k' == k <;> simp [List.lookup, h]
  | cons p rest ih =>
    obtain ⟨a, b⟩ := p
    rw [List.map_cons]
    by_cases hak : a = k
    · subst hak
      simp only [beq_self_eq_true, if_true, lookup_cons, ih]
      by_cases hk : k' = a
      · subst hk; simp
      · have h2 : (k' == a) = false := by simp [hk]
        simp [h2]
    · have h1 : (a == k) = false := by simp [hak]
      simp only [h1, Bool.false_eq_true, if_false, lookup_cons, ih]
      by_cases hk : k' = a
      · subst hk
        have h3 : (k' == k) = false := by simp [hak]
        simp [h3]
      · have h4 : (k' == a) = false := by simp [hk]
        have h5 : k ≠ a := fun he => hak he.symm
        simp [h4, h5]

theorem lookup_mapSet {V : Type} (l : List (String × CacheItem V)) (k k' : String)
    (it : CacheItem V) :
    List.lookup k' (mapSet l k it) =
      if k' == k then some it else List.lookup k' l := by
  unfold mapSet
  by_cases ha : l.any fun p => p.1 == k
  · rw [if_pos ha, lookup_map_replace]
    rw [any_key_eq_lookup_isSome] at ha
    cases hl : List.lookup k l
    · rw [hl] at ha; simp at ha
    · simp [hl]
  · rw [if_neg ha, lookup_append]
    rw [any_key_eq_lookup_isSome] at ha
    by_cases hk : k' = k
    · subst hk
      cases hl : List.lookup k' l
      · simp [hl, List.lookup]
      · rw [hl] at ha; simp at ha
    · have h2 : (k' == k) = false := by simp [hk]
      rw [if_neg (by simp [hk])]
      cases hl : List.lookup k' l
      · simp [hl, lookup_cons, h2, List.lookup]
      · simp [hl]

theorem lookup_mapDelete {V : Type} (l : List (String × CacheItem V)) (k k' : String) :
    List.lookup k' (mapDelete l k) =
      if k' == k then none else List.lookup k' l := by
  unfold mapDelete
  induction l with
  | nil => cases h : k' == k <;> simp [List.lookup, h]
  | cons p rest ih =>
    obtain ⟨a, b⟩ := p
    by_cases hak : a = k
    · subst hak
      have h1 : (a != a) = false := by simp
      rw [List.filter_cons]
      simp only [h1, Bool.false_eq_true, if_false, ih, lookup_cons]
      by_cases hk : k' = a
      · subst hk; simp
      · have h2 : (k' == a) = false := by simp [hk]
        simp [h2]
    · have h1 : (a != k) = true := by simp [hak]
      rw [List.filter_cons]
      simp only [h1, if_true, lookup_cons, ih]
      by_cases hk : k' = a
      · subst hk
        have h2 : (k' == k) = false := by simp [hak]
        simp [h2]
      · have h3 : (k' == a) = false := by simp [hk]
        simp [h3]

theorem lookup_filter_of_nodup {β : Type} (k : String) (f : String × β → Bool)
    (l : List (String × β)) (hnd : (l.map Prod.fst).Nodup) :
    List.lookup k (l.filter f) =
      match List.lookup k l with
      | some b => if f (k, b) then some b else none
      | none => none := by
  induction l with
  | nil => simp [List.lookup]
  | cons p rest ih =>
    obtain ⟨a, b⟩ := p
    simp only [List.map_cons, List.nodup_cons] at hnd
    obtain ⟨ha, hnd2⟩ := hnd
    by_cases hk : k = a
    · subst hk
      have hrest : List.lookup k rest = none := by
        rw [List.lookup_eq_none_iff]
        intro p hp
        have : p.1 ∈ rest.map Prod.fst := List.mem_map_of_mem Prod.fst hp
        have hne : k ≠ p.1 := fun he => ha (he ▸ this)
        simp [hne]
      rw [List.filter_cons]
      cases hf : f (k, b)
      · simp only [Bool.false_eq_true, if_false]
        rw [lookup_cons]
        have hfil : List.lookup k (rest.filter f) = none := by
          rw [List.lookup_eq_none_iff]
          intro p hp
          have hp2 : p ∈ rest := List.mem_of_mem_filter hp
          have : p.1 ∈ rest.map Prod.fst := List.mem_map_of_mem Prod.fst hp2
          have hne : k ≠ p.1 := fun he => ha (he ▸ this)
          simp [hne]
        simp [hfil, hf]
      · simp only [if_true]
        rw [lookup_cons, lookup_cons]
        simp [hf]
    · have h2 : (k == a) = false := by simp [hk]
      rw [List.filter_cons]
      cases hf : f (a, b)
      · simp only [Bool.false_eq_true, if_false]
        rw [ih hnd2, lookup_cons]
        simp [h2]
      · simp only [if_true]
        rw [lookup_cons, lookup_cons, ih hnd2]
        simp [h2]

theorem nodup_mapSet {V : Type} (l : List (String × CacheItem V)) (k : String)
    (it : CacheItem V) (hnd : (l.map Prod.fst).Nodup) :
    ((mapSet l k it).map Prod.fst).Nodup := by
  unfold mapSet
  by_cases ha : l.any fun p => p.1 == k
  · rw [if_pos ha]
    have : ((l.map fun p => if p.1 == k then (k, it) else p).map Prod.fst) =
        l.map Prod.fst := by
      rw [List.map_map]
      apply List.map_congr_left
      intro p _
      by_cases hp : p.1 = k
      · simp [hp]
      · simp [hp]
    rw [this]; exact hnd
  · rw [if_neg ha]
    rw [any_key_eq_lookup_isSome] at ha
    have hk : k ∉ l.map Prod.fst := by
      intro hmem
      obtain ⟨p, hp, hfst⟩ := List.mem_map.mp hmem
      have : List.lookup k l ≠ none := by
        intro hnone
        rw [List.lookup_eq_none_iff] at hnone
        have := hnone p hp
        simp [hfst] at this
      cases hl : List.lookup k l
      · exact this hl
      · rw [hl] at ha; simp at ha
    simp [List.nodup_append, hnd, hk]

theorem nodup_filter {β : Type} (f : String × β → Bool) (l : List (String × β))
    (hnd : (l.map Prod.fst).Nodup) :
    ((l.filter f).map Prod.fst).Nodup :=
  ((List.filter_sublist l).map Prod.fst).nodup hnd

/-! Field-stability and well-formedness lemmas for `LocalCache`. -/

@[simp] theorem LocalCache.pfx_cleanup {V : Type} (c : LocalCache V) (nowMs : Nat) :
    (c.cleanup nowMs).pfx = c.pfx := by
  unfold LocalCache.cleanup; split <;> rfl

@[simp] theorem LocalCache.buildKey_cleanup {V : Type} (c : LocalCache V)
    (nowMs : Nat) (key : String) :
    (c.cleanup nowMs).buildKey key = c.buildKey key := by
  unfold LocalCache.buildKey; rw [LocalCache.pfx_cleanup]

theorem LocalCache.WF_cleanup {V : Type} (c : LocalCache V) (nowMs : Nat)
    (hwf : c.WF) : (c.cleanup nowMs).WF := by
  unfold LocalCache.cleanup
  split
  · exact hwf
  · exact nodup_filter _ _ hwf

theorem LocalCache.lookup_cleanup {V : Type} (c : LocalCache V) (nowMs : Nat)
    (k : String) (hwf : c.WF) :
    List.lookup k (c.cleanup nowMs).cache =
      if nowMs - c.lastCleanup < c.cleanupInterval then List.lookup k c.cache
      else
        match List.lookup k c.cache with
        | some it => if ttlExpired it.ttl (nowMs / 1000) then none else some it
        | none => none := by
  unfold LocalCache.cleanup
  split <;> rename_i h
  · rfl
  · show List.lookup k (c.cache.filter _) = _
    rw [lookup_filter_of_nodup k _ c.cache hwf]
    cases List.lookup k c.cache
    · rfl
    · rename_i it
      show (if (!ttlExpired it.ttl (nowMs / 1000)) = true then _ else _) = _
      cases hx : ttlExpired it.ttl (nowMs / 1000) <;> simp [hx]

@[simp] theorem LocalCache.pfx_set {V : Type} (c : LocalCache V) (truthy : V → Bool)
    (nowMs : Nat) (key : String) (value : Option V) (ttlOpt : Option Nat) :
    (c.set truthy nowMs key value ttlOpt).pfx = c.pfx := by
  unfold LocalCache.set
  cases value with
  | none => simp
  | some v => cases htr : truthy v <;> simp [htr]

@[simp] theorem LocalCache.buildKey_set {V : Type} (c : LocalCache V) (truthy : V → Bool)
    (nowMs : Nat) (key : String) (value : Option V) (ttlOpt : Option Nat) (k : String) :
    (c.set truthy nowMs key value ttlOpt).buildKey k = c.buildKey k := by
  unfold LocalCache.buildKey
  rw [LocalCache.pfx_set]

theorem LocalCache.lookup_set_truthy {V : Type} (c : LocalCache V) (truthy : V → Bool)
    (nowMs : Nat) (key : String) (v : V) (ttlOpt : Option Nat) (k' : String)
    (htr : truthy v = true) :
    List.lookup k' (c.set truthy nowMs key (some v) ttlOpt).cache =
      if k' == c.buildKey key then
        some ⟨c.buildKey key, v, mkTtl (nowMs / 1000) ttlOpt⟩
      else List.lookup k' (c.cleanup nowMs).cache := by
  unfold LocalCache.set
  simp only [htr, if_true, LocalCache.buildKey_cleanup]
  exact lookup_mapSet _ _ _ _

theorem LocalCache.lookup_set_falsy {V : Type} (c : LocalCache V) (truthy : V → Bool)
    (nowMs : Nat) (key : String) (value : Option V) (ttlOpt : Option Nat) (k' : String)
    (hf : ∀ x, value = some x → truthy x = false) :
    List.lookup k' (c.set truthy nowMs key value ttlOpt).cache =
      if k' == c.buildKey key then none
      else List.lookup k' (c.cleanup nowMs).cache := by
  unfold LocalCache.set
  cases value with
  | none =>
      simp only [LocalCache.buildKey_cleanup]
      exact lookup_mapDelete _ _ _
  | some x =>
      have hx : truthy x = false := hf x rfl
      simp only [hx, Bool.false_eq_true, if_false, LocalCache.buildKey_cleanup]
      exact lookup_mapDelete _ _ _

theorem LocalCache.WF_set {V : Type} (c : LocalCache V) (truthy : V → Bool)
    (nowMs : Nat) (key : String) (value : Option V) (ttlOpt : Option Nat)
    (hwf : c.WF) : (c.set truthy nowMs key value ttlOpt).WF := by
  have h1 : (c.cleanup nowMs).WF := c.WF_cleanup nowMs hwf
  unfold LocalCache.set
  cases value with
  | none => exact nodup_filter _ _ h1
  | some v =>
      cases htr : truthy v
      · simp only [htr, Bool.false_eq_true, if_false]
        exact nodup_filter _ _ h1
      · simp only [htr, if_true]
        exact nodup_mapSet _ _ _ h1

theorem LocalCache.WF_delete_fst {V : Type} (c : LocalCache V) (key : String)
    (hwf : c.WF) : (c.delete key).1.WF :=
  nodup_filter _ _ hwf

/-- `get` in terms of the lookup in the post-cleanup map. -/
theorem LocalCache.get_snd_core {V : Type} (c : LocalCache V) (nowMs : Nat)
    (key : String) :
    (c.get nowMs key).2 =
      match List.lookup (c.buildKey key) (c.cleanup nowMs).cache with
      | some it => if ttlExpired it.ttl (nowMs / 1000) then none else some it.value
      | none => none := by
  unfold LocalCache.get
  simp only [LocalCache.buildKey_cleanup]
  cases hl : List.lookup (c.buildKey key) (c.cleanup nowMs).cache with
  | none => simp [hl]
  | some it =>
      cases hx : ttlExpired it.ttl (nowMs / 1000) <;> simp [hl, hx]

/-- Behaviour of `get` on a well-formed state: the result is determined
by the raw lookup in the (pre-cleanup) map plus the expiry test —
whether or not the lazy sweep runs at this access. -/
theorem LocalCache.get_snd_eq {V : Type} (c : LocalCache V) (nowMs : Nat)
    (key : String) (hwf : c.WF) :
    (c.get nowMs key).2 =
      match List.lookup (c.buildKey key) c.cache with
      | some it => if ttlExpired it.ttl (nowMs / 1000) then none else some it.value
      | none => none := by
  rw [LocalCache.get_snd_core, LocalCache.lookup_cleanup c nowMs _ hwf]
  by_cases h : nowMs - c.lastCleanup < c.cleanupInterval
  · rw [if_pos h]
  · rw [if_neg h]
    cases hl : List.lookup (c.buildKey key) c.cache with
    | none => rfl
    | some it =>
        cases hx : ttlExpired it.ttl (nowMs / 1000) <;> simp [hx]

/-- The state `get` returns stays well-formed and keeps the prefix. -/
theorem LocalCache.WF_get_fst {V : Type} (c : LocalCache V) (nowMs : Nat)
    (key : String) (hwf : c.WF) : (c.get nowMs key).1.WF := by
  have h1 : (c.cleanup nowMs).WF := c.WF_cleanup nowMs hwf
  unfold LocalCache.get
  simp only [LocalCache.buildKey_cleanup]
  cases hl : List.lookup (c.buildKey key) (c.cleanup nowMs).cache with
  | none => simp only [hl]; exact h1
  | some it =>
      cases hx : ttlExpired it.ttl (nowMs / 1000)
      · simp only [hl, hx, Bool.false_eq_true, if_false]; exact h1
      · simp only [hl, hx, if_true]
        exact nodup_filter _ _ h1

@[simp] theorem LocalCache.pfx_get_fst {V : Type} (c : LocalCache V) (nowMs : Nat)
    (key : String) : (c.get nowMs key).1.pfx = c.pfx := by
  unfold LocalCache.get
  simp only [LocalCache.buildKey_cleanup]
  cases hl : List.lookup (c.buildKey key) (c.cleanup nowMs).cache with
  | none => simp only [hl]; simp
  | some it =>
      cases hx : ttlExpired it.ttl (nowMs / 1000) <;>
        simp only [hl, hx, Bool.false_eq_true, if_false, if_true] <;> simp

theorem ttlExpired_some (T s : Nat) (hT : T ≠ 0) :
    ttlExpired (some T) s = decide (T < s) := by
  unfold ttlExpired
  simp [hT]

/-! ## Claims -/

/-- C1, counterexample: the claim says a read at time greater than or
equal to `s + t` reports absent, but the expiry test is strict
(`item.ttl < now`): after `set("k", "v", 1)` at second 0, a `get` at
exactly second `0 + 1` still returns the value. -/
theorem C1_counterexample :
    ((((⟨[], 0, 1800000, false, ""⟩ : LocalCache String).set (fun _ => true) 0 "k"
        (some "v") (some 1)).get 1000 "k").2 = some "v") ∧
    (1000 / 1000 : Nat) = 0 / 1000 + 1 := by
  constructor <;> rfl

/-- C1 (amended): for every TTL `t ≥ 1`, after `set k v t` at time `s`
with no later write to `k`, `get` returns `v` at every read at second
`r ≤ s + t` and absent at every read at second `r > s + t` — whether or
not a cleanup sweep (here: at an arbitrary time `u` between the write
and the read) has run in between.  (Seconds are `ms / 1000`; a TTL of
`0` is falsy in JS and stores no expiry at all.) -/
theorem C1_thm {V : Type} (c : LocalCache V) (truthy : V → Bool) (k : String)
    (v : V) (t sMs uMs rMs : Nat) (hwf : c.WF) (htr : truthy v = true) (ht : 1 ≤ t)
    (h1 : sMs ≤ uMs) (h2 : uMs ≤ rMs) :
    (((c.set truthy sMs k (some v) (some t)).cleanup uMs).get rMs k).2 =
      if rMs / 1000 ≤ sMs / 1000 + t then some v else none := by
  have hwf1 : (c.set truthy sMs k (some v) (some t)).WF :=
    c.WF_set truthy sMs k (some v) (some t) hwf
  have hwf2 : ((c.set truthy sMs k (some v) (some t)).cleanup uMs).WF :=
    (c.set truthy sMs k (some v) (some t)).WF_cleanup uMs hwf1
  have hmk : mkTtl (sMs / 1000) (some t) = some (sMs / 1000 + t) := by
    show (if t = 0 then none else some (sMs / 1000 + t)) = _
    rw [if_neg (by omega : ¬t = 0)]
  have hl1 : List.lookup (c.buildKey k) (c.set truthy sMs k (some v) (some t)).cache =
      some ⟨c.buildKey k, v, some (sMs / 1000 + t)⟩ := by
    rw [c.lookup_set_truthy truthy sMs k v (some t) (c.buildKey k) htr,
      if_pos (by simp), hmk]
  have hl2 := (c.set truthy sMs k (some v) (some t)).lookup_cleanup uMs
    (c.buildKey k) hwf1
  rw [hl1] at hl2
  have hget := ((c.set truthy sMs k (some v) (some t)).cleanup uMs).get_snd_eq rMs k hwf2
  have hbk2 : ((c.set truthy sMs k (some v) (some t)).cleanup uMs).buildKey k =
      c.buildKey k := by
    rw [LocalCache.buildKey_cleanup, LocalCache.buildKey_set]
  rw [hbk2] at hget
  rw [hget, hl2]
  have hT0 : sMs / 1000 + t ≠ 0 := by omega
  have hex := ttlExpired_some (sMs / 1000 + t) (rMs / 1000) hT0
  have hexu := ttlExpired_some (sMs / 1000 + t) (uMs / 1000) hT0
  have hur : uMs / 1000 ≤ rMs / 1000 := Nat.div_le_div_right h2
  by_cases hcl : uMs - (c.set truthy sMs k (some v) (some t)).lastCleanup <
      (c.set truthy sMs k (some v) (some t)).cleanupInterval
  · rw [if_pos hcl]
    show (if ttlExpired (some (sMs / 1000 + t)) (rMs / 1000) = true then none
      else some v) = _
    rw [hex]
    by_cases hr : rMs / 1000 ≤ sMs / 1000 + t
    · rw [if_pos hr, if_neg (by simpa using (by omega : ¬(sMs / 1000 + t < rMs / 1000)))]
    · rw [if_neg hr, if_pos (by simpa using (by omega : sMs / 1000 + t < rMs / 1000))]
  · rw [if_neg hcl]
    show (match (if ttlExpired (some (sMs / 1000 + t)) (uMs / 1000) = true then none
        else some (⟨c.buildKey k, v, some (sMs / 1000 + t)⟩ : CacheItem V)) with
      | some it => if ttlExpired it.ttl (rMs / 1000) = true then none else some it.value
      | none => none) = _
    rw [hexu]
    by_cases hu : sMs / 1000 + t < uMs / 1000
    · rw [if_pos (by simpa using hu)]
      show (none : Option V) = _
      rw [if_neg (by omega : ¬rMs / 1000 ≤ sMs / 1000 + t)]
    · rw [if_neg (by simpa using hu)]
      show (if ttlExpired (some (sMs / 1000 + t)) (rMs / 1000) = true then none
        else some v) = _
      rw [hex]
      by_cases hr : rMs / 1000 ≤ sMs / 1000 + t
      · rw [if_pos hr, if_neg (by simpa using (by omega : ¬(sMs / 1000 + t < rMs / 1000)))]
      · rw [if_neg hr, if_pos (by simpa using (by omega : sMs / 1000 + t < rMs / 1000))]

/-- C1 witness: Scenario A at concrete inputs — `set("user:1","a",60)` at
second 0, a cleanup attempt at 0, read at second 59 returns the value. -/
theorem C1_witness :
    ((((⟨[], 0, 1800000, false, ""⟩ : LocalCache String).set (fun _ => true) 0 "user:1"
        (some "a") (some 60)).cleanup 0).get 59000 "user:1").2 = some "a" := by
  have h := C1_thm (⟨[], 0, 1800000, false, ""⟩ : LocalCache String)
    (fun _ => true) "user:1" "a" 60 0 0 59000 (by simp [LocalCache.WF]) rfl
    (by decide) (by decide) (by decide)
  rw [if_pos (by decide)] at h
  exact h

/-- C7: calling `set(k)` with an absent or falsy value deletes any
existing entry for `k` instead of storing it (the lookup under the full
key is absent afterwards), so `has(k)` is false at any later read —
even if `k` previously held a value. -/
theorem C7_thm {V : Type} (c : LocalCache V) (truthy : V → Bool) (nowMs rMs : Nat)
    (k : String) (value : Option V) (ttlOpt : Option Nat) (hwf : c.WF)
    (hfal : ∀ x, value = some x → truthy x = false) :
    List.lookup (c.buildKey k) (c.set truthy nowMs k value ttlOpt).cache = none ∧
    ((c.set truthy nowMs k value ttlOpt).has rMs k).2 = false := by
  have hl : List.lookup (c.buildKey k) (c.set truthy nowMs k value ttlOpt).cache =
      none := by
    rw [c.lookup_set_falsy truthy nowMs k value ttlOpt (c.buildKey k) hfal,
      if_pos (by simp)]
  refine ⟨hl, ?_⟩
  have hwf1 := c.WF_set truthy nowMs k value ttlOpt hwf
  have hget := (c.set truthy nowMs k value ttlOpt).get_snd_eq rMs k hwf1
  rw [LocalCache.buildKey_set] at hget
  show ((c.set truthy nowMs k value ttlOpt).get rMs k).2.isSome = false
  rw [hget, hl]
  rfl

/-- C7 witness: with string values and JS string truthiness, storing
the falsy value `""` under a key that held `"old"` deletes the entry
and `has` reports false. -/
theorem C7_witness :
    List.lookup "k"
      ((⟨[("k", ⟨"k", "old", none⟩)], 0, 1800000, false, ""⟩ : LocalCache String).set
        (fun s => !(s == "")) 0 "k" (some "") none).cache = none ∧
    (((⟨[("k", ⟨"k", "old", none⟩)], 0, 1800000, false, ""⟩ : LocalCache String).set
        (fun s => !(s == "")) 0 "k" (some "") none).has 7 "k").2 = false := by
  have h := C7_thm (⟨[("k", ⟨"k", "old", none⟩)], 0, 1800000, false, ""⟩ :
      LocalCache String) (fun s => !(s == "")) 0 7 "k" (some "") none
    (by simp [LocalCache.WF]) (by intro x hx; cases hx; rfl)
  exact h

theorem LocalCache.buildKey_congr {V : Type} {c d : LocalCache V} (h : c.pfx = d.pfx)
    (k : String) : c.buildKey k = d.buildKey k := by
  unfold LocalCache.buildKey; rw [h]

/-- An entry stored at `nowMs` is never already expired at `nowMs`. -/
theorem ttlExpired_mkTtl_now (s : Nat) (ttlOpt : Option Nat) :
    ttlExpired (mkTtl s ttlOpt) s = false := by
  cases ttlOpt with
  | none => rfl
  | some t =>
      by_cases h : t = 0
      · simp [mkTtl, h, ttlExpired]
      · simp only [mkTtl, h, if_false]
        rw [ttlExpired_some _ _ (by omega)]
        simp

/-- Reading back a freshly stored (truthy) value at the same clock tick
returns it. -/
theorem LocalCache.get_set_same_time {V : Type} (c : LocalCache V) (truthy : V → Bool)
    (nowMs : Nat) (k : String) (v : V) (ttlOpt : Option Nat) (hwf : c.WF)
    (htr : truthy v = true) :
    ((c.set truthy nowMs k (some v) ttlOpt).get nowMs k).2 = some v := by
  have hwf1 := c.WF_set truthy nowMs k (some v) ttlOpt hwf
  rw [LocalCache.get_snd_eq _ _ _ hwf1, LocalCache.buildKey_set,
    c.lookup_set_truthy truthy nowMs k v ttlOpt (c.buildKey k) htr, if_pos (by simp)]
  show (if ttlExpired (mkTtl (nowMs / 1000) ttlOpt) (nowMs / 1000) = true then none
    else some v) = some v
  rw [ttlExpired_mkTtl_now]
  rfl

/-- After a `get` that reported absent, the key is (still) absent in the
returned state. -/
theorem LocalCache.lookup_get_fst {V : Type} (c : LocalCache V) (nowMs : Nat)
    (k : String) (hnone : (c.get nowMs k).2 = none) :
    List.lookup (c.buildKey k) ((c.get nowMs k).1).cache = none := by
  unfold LocalCache.get at hnone ⊢
  simp only [LocalCache.buildKey_cleanup] at hnone ⊢
  cases hl : List.lookup (c.buildKey k) (c.cleanup nowMs).cache with
  | none => simp [hl]
  | some it =>
      cases hx : ttlExpired it.ttl (nowMs / 1000)
      · rw [hl] at hnone
        simp [hx] at hnone
      · simp only [hl, hx, if_true]
        rw [lookup_mapDelete, if_pos (by simp)]

/-- C8, counterexample: `size()` does NOT always return the live entry
count — the cleanup it triggers is conditional on the cleanup interval.
With the default 30-minute interval, an entry set at second 0 with TTL 1
is expired at second 5, yet `size()` at second 5 returns 1 while the
live count is 0. -/
theorem C8_counterexample :
    (((⟨[], 0, 1800000, false, ""⟩ : LocalCache String).set (fun _ => true) 0 "k"
        (some "v") (some 1)).size 5000).2 = 1 ∧
    specLiveCount
      ((⟨[], 0, 1800000, false, ""⟩ : LocalCache String).set (fun _ => true) 0 "k"
        (some "v") (some 1)) (5000 / 1000) = 0 := by
  constructor <;> rfl

/-- C8 (amended): `size()` triggers the conditional lazy cleanup and
returns the raw stored-entry count afterwards; when the cleanup interval
has elapsed (so the sweep actually runs) this equals the live
(non-expired) entry count, but expired entries that the sweep has not
yet removed are counted. -/
theorem C8_thm {V : Type} (c : LocalCache V) (nowMs : Nat) :
    (c.size nowMs).2 = ((c.cleanup nowMs).cache).length ∧
    (c.cleanupInterval ≤ nowMs - c.lastCleanup →
      (c.size nowMs).2 = specLiveCount c (nowMs / 1000)) := by
  constructor
  · rfl
  · intro h
    show ((c.cleanup nowMs).cache).length = _
    unfold LocalCache.cleanup
    rw [if_neg (by omega)]
    rfl

/-- C8 witness: with a 1-second cleanup interval elapsed, `size` at
second 5 equals the live count (the TTL-1 entry is swept, the
no-TTL entry remains). -/
theorem C8_witness :
    ((⟨[("a", ⟨"a", "v", some 1⟩), ("b", ⟨"b", "w", none⟩)], 0, 1000, false, ""⟩ :
        LocalCache String).size 5000).2 =
      specLiveCount
        (⟨[("a", ⟨"a", "v", some 1⟩), ("b", ⟨"b", "w", none⟩)], 0, 1000, false, ""⟩ :
          LocalCache String) (5000 / 1000) :=
  (C8_thm _ 5000).2 (by decide)

/-- C3, counterexample: the claim says the derived cache key is
`partitionValue` alone when NO sort key is CONFIGURED — but the
derivation only checks whether a `sortValue` argument was supplied: an
adapter configured without a sort key still derives `"a:b"` (not `"a"`)
for `get("a", "b")`. -/
theorem C3_counterexample :
    (⟨⟨[], 0, 1800000, false, "tbl:"⟩, ⟨true, some 300⟩, "pk", none⟩ : Adapter).sortKey
        = none ∧
    (⟨⟨[], 0, 1800000, false, "tbl:"⟩, ⟨true, some 300⟩, "pk", none⟩ : Adapter).getCacheKey
        "a" (some "b") = "a:b" ∧
    "a:b" ≠ "a" :=
  ⟨rfl, rfl, by decide⟩

/-- C3 (amended): the cache key the adapter derives depends only on
whether a `sortValue` is supplied — `partitionValue` alone when it is
absent, `partitionValue:sortValue` when present — independently of the
adapter's configuration; every operation derives keys through the same
shared `generateCacheKey`, so the same `(partitionValue, sortValue)`
pair always yields the same cache key. -/
theorem C3_thm (a a2 : Adapter) (pv : String) (sv : Option String) :
    a.getCacheKey pv sv =
      (match sv with
       | none => pv
       | some s => pv ++ ":" ++ s) ∧
    a.getCacheKey pv sv = a2.getCacheKey pv sv ∧
    a.getCacheKey pv sv = generateCacheKey pv sv := by
  refine ⟨?_, rfl, rfl⟩
  cases sv <;> rfl

/-- C2: adapter `get` — with caching disabled it delegates directly to
the remote store (one remote read, adapter untouched); with caching
enabled, a cache hit is returned with zero remote reads; on a cache
miss there is exactly one remote read whose answer is returned, the
item is stored in the cache with the configured TTL exactly when it
was found (so an immediate repeat `get` is a cache hit with zero remote
reads), and a not-found answer is not cached (no negative caching), so
a repeat `get` after a not-found miss again performs one remote read. -/
theorem C2_thm (a : Adapter) (remote : String → Option String → Option Item)
    (nowMs : Nat) (pv : String) (sv : Option String) (hwf : a.cache.WF) :
    (a.cacheConfig.enabled = false →
      a.get remote nowMs pv sv = (a, remote pv sv, 1)) ∧
    (∀ it, a.cacheConfig.enabled = true →
      (a.cache.get nowMs (generateCacheKey pv sv)).2 = some it →
      (a.get remote nowMs pv sv).2 = (some it, 0)) ∧
    (a.cacheConfig.enabled = true →
      (a.cache.get nowMs (generateCacheKey pv sv)).2 = none →
      (a.get remote nowMs pv sv).2.2 = 1 ∧
      (a.get remote nowMs pv sv).2.1 = remote pv sv ∧
      (∀ it, remote pv sv = some it →
        List.lookup (a.cache.buildKey (generateCacheKey pv sv))
            (a.get remote nowMs pv sv).1.cache.cache =
          some ⟨a.cache.buildKey (generateCacheKey pv sv), it,
            mkTtl (nowMs / 1000) a.cacheConfig.ttl⟩ ∧
        ((a.get remote nowMs pv sv).1.get remote nowMs pv sv).2 = (some it, 0)) ∧
      (remote pv sv = none →
        (a.get remote nowMs pv sv).2.1 = none ∧
        List.lookup (a.cache.buildKey (generateCacheKey pv sv))
          (a.get remote nowMs pv sv).1.cache.cache = none ∧
        ((a.get remote nowMs pv sv).1.get remote nowMs pv sv).2.2 = 1)) := by
  refine ⟨?_, ?_, ?_⟩
  · intro hdis
    unfold Adapter.get
    rw [hdis]
    rfl
  · intro it hen hhit
    unfold Adapter.get Adapter.getCacheKey
    rw [hen, if_pos rfl]
    simp only [hhit]
  · intro hen hmiss
    have hwf1 : (a.cache.get nowMs (generateCacheKey pv sv)).1.WF :=
      a.cache.WF_get_fst nowMs (generateCacheKey pv sv) hwf
    have hpfx : (a.cache.get nowMs (generateCacheKey pv sv)).1.pfx = a.cache.pfx :=
      a.cache.pfx_get_fst nowMs (generateCacheKey pv sv)
    have hbk : (a.cache.get nowMs (generateCacheKey pv sv)).1.buildKey
        (generateCacheKey pv sv) = a.cache.buildKey (generateCacheKey pv sv) :=
      LocalCache.buildKey_congr hpfx _
    cases hrem : remote pv sv with
    | some it =>
        have hmain : a.get remote nowMs pv sv =
            ({ a with
               cache := (a.cache.get nowMs (generateCacheKey pv sv)).1.set itemTruthy
                 nowMs (generateCacheKey pv sv) (some it) a.cacheConfig.ttl },
             some it, 1) := by
          unfold Adapter.get Adapter.getCacheKey
          rw [hen, if_pos rfl]
          simp only [hmiss, hrem]
        rw [hmain]
        refine ⟨rfl, rfl, ?_, ?_⟩
        · intro it2 hit2
          injection hit2 with he
          subst he
          constructor
          · rw [LocalCache.lookup_set_truthy _ _ _ _ _ _ _ rfl, hbk,
              if_pos (by simp)]
          · unfold Adapter.get Adapter.getCacheKey
            rw [hen, if_pos rfl]
            have hre : (((a.cache.get nowMs (generateCacheKey pv sv)).1.set itemTruthy
                nowMs (generateCacheKey pv sv) (some it) a.cacheConfig.ttl).get nowMs
                (generateCacheKey pv sv)).2 = some it :=
              LocalCache.get_set_same_time _ _ _ _ _ _ hwf1 rfl
            simp only [hre]
        · intro hno
          exact Option.noConfusion hno
    | none =>
        have hmain : a.get remote nowMs pv sv =
            ({ a with cache := (a.cache.get nowMs (generateCacheKey pv sv)).1 },
             none, 1) := by
          unfold Adapter.get Adapter.getCacheKey
          rw [hen, if_pos rfl]
          simp only [hmiss, hrem]
        rw [hmain]
        refine ⟨rfl, rfl, ?_, ?_⟩
        · intro it2 hit2
          exact Option.noConfusion hit2
        · intro _
          have habs : List.lookup (a.cache.buildKey (generateCacheKey pv sv))
              (a.cache.get nowMs (generateCacheKey pv sv)).1.cache = none :=
            a.cache.lookup_get_fst nowMs (generateCacheKey pv sv) hmiss
          refine ⟨rfl, habs, ?_⟩
          have hre : ((a.cache.get nowMs (generateCacheKey pv sv)).1.get nowMs
              (generateCacheKey pv sv)).2 = none := by
            rw [LocalCache.get_snd_eq _ _ _ hwf1, hbk, habs]
          unfold Adapter.get Adapter.getCacheKey
          rw [hen, if_pos rfl]
          simp only [hre]
          cases remote pv sv <;> rfl

/-- C2 witness: on an enabled adapter with an empty cache, a `get` for
`("p", none)` misses, performs one remote read returning the item, and
the immediate repeat `get` is served from cache with zero remote reads. -/
theorem C2_witness :
    (((⟨⟨[], 0, 1800000, false, "t:"⟩, ⟨true, some 300⟩, "pk", none⟩ : Adapter).get
        (fun _ _ => some [("pk", "p")]) 5 "p" none).2.2 = 1) ∧
    ((((⟨⟨[], 0, 1800000, false, "t:"⟩, ⟨true, some 300⟩, "pk", none⟩ : Adapter).get
        (fun _ _ => some [("pk", "p")]) 5 "p" none).1.get
        (fun _ _ => some [("pk", "p")]) 5 "p" none).2 = (some [("pk", "p")], 0)) := by
  have h := (C2_thm (⟨⟨[], 0, 1800000, false, "t:"⟩, ⟨true, some 300⟩, "pk", none⟩ :
      Adapter) (fun _ _ => some [("pk", "p")]) 5 "p" none
    (by simp [LocalCache.WF])).2.2 rfl rfl
  exact ⟨h.1, (h.2.2.1 [("pk", "p")] rfl).2⟩

/-- C4: `put(item)` performs the remote write (whose reported outcome it
returns); the cache entry under the key derived from the item's own key
attributes is overwritten with the configured TTL if and only if the
remote write succeeded and caching is enabled; on a failed remote write
(or with caching disabled) the adapter — in particular its cache — is
left completely unchanged. -/
theorem C4_thm (a : Adapter) (remoteOk : Bool) (nowMs : Nat) (item : Item) :
    (a.put remoteOk nowMs item).2 = remoteOk ∧
    (remoteOk = true → a.cacheConfig.enabled = true →
      (a.put remoteOk nowMs item).1.cache =
        a.cache.set itemTruthy nowMs (itemCacheKey a item) (some item)
          a.cacheConfig.ttl ∧
      List.lookup (a.cache.buildKey (itemCacheKey a item))
          (a.put remoteOk nowMs item).1.cache.cache =
        some ⟨a.cache.buildKey (itemCacheKey a item), item,
          mkTtl (nowMs / 1000) a.cacheConfig.ttl⟩) ∧
    (remoteOk = false ∨ a.cacheConfig.enabled = false →
      a.put remoteOk nowMs item = (a, remoteOk)) := by
  refine ⟨?_, ?_, ?_⟩
  · unfold Adapter.put
    cases h : (remoteOk && a.cacheConfig.enabled) <;> simp [h]
  · intro hok hen
    have hcond : (remoteOk && a.cacheConfig.enabled) = true := by
      rw [hok, hen]; rfl
    have hmain : a.put remoteOk nowMs item =
        ({ a with cache := (a.cache.set itemTruthy nowMs (itemCacheKey a item)
            (some item) a.cacheConfig.ttl) }, remoteOk) := by
      unfold Adapter.put
      rw [if_pos hcond]
      rfl
    rw [hmain]
    refine ⟨rfl, ?_⟩
    rw [LocalCache.lookup_set_truthy _ _ _ _ _ _ _ rfl, if_pos (by simp)]
  · intro hdis
    have hcond : (remoteOk && a.cacheConfig.enabled) = false := by
      cases hdis with
      | inl h => rw [h]; rfl
      | inr h => rw [h]; simp
    unfold Adapter.put
    rw [if_neg (by simp [hcond])]

/-- C4 witness: on an enabled adapter, a successful `put` stores the item
under its derived key with the configured TTL, and a failed `put` leaves
the adapter unchanged. -/
theorem C4_witness :
    List.lookup "t:p"
      (((⟨⟨[], 0, 1800000, false, "t:"⟩, ⟨true, some 60⟩, "pk", none⟩ : Adapter).put
        true 5000 [("pk", "p")]).1.cache.cache) =
      some ⟨"t:p", [("pk", "p")], some 65⟩ ∧
    ((⟨⟨[], 0, 1800000, false, "t:"⟩, ⟨true, some 60⟩, "pk", none⟩ : Adapter).put
        false 5000 [("pk", "p")]) =
      (⟨⟨[], 0, 1800000, false, "t:"⟩, ⟨true, some 60⟩, "pk", none⟩, false) := by
  constructor
  · have h := ((C4_thm (⟨⟨[], 0, 1800000, false, "t:"⟩, ⟨true, some 60⟩, "pk", none⟩ :
        Adapter) true 5000 [("pk", "p")]).2.1 rfl rfl).2
    exact h
  · exact (C4_thm (⟨⟨[], 0, 1800000, false, "t:"⟩, ⟨true, some 60⟩, "pk", none⟩ :
      Adapter) false 5000 [("pk", "p")]).2.2 (Or.inl rfl)

/-- C5: when caching is enabled, a successful `update` deletes the
corresponding cache entry (the entry is absent afterwards — invalidated,
not refreshed), so a subsequent `get` for that key performs exactly one
remote read; a failed `update` returns the adapter unchanged, so the
cache entry is not deleted. -/
theorem C5_thm (a : Adapter) (remote : String → Option String → Option Item)
    (nowMs : Nat) (pv : String) (sv : Option String)
    (hen : a.cacheConfig.enabled = true) (hwf : a.cache.WF) :
    ((a.update true pv sv).1.cache.cache =
        mapDelete a.cache.cache (a.cache.buildKey (generateCacheKey pv sv)) ∧
      List.lookup (a.cache.buildKey (generateCacheKey pv sv))
        (a.update true pv sv).1.cache.cache = none ∧
      ((a.update true pv sv).1.get remote nowMs pv sv).2.2 = 1) ∧
    a.update false pv sv = (a, false) := by
  have hcond : (true && a.cacheConfig.enabled) = true := by rw [hen]; rfl
  have hmain : a.update true pv sv =
      ({ a with cache := (a.cache.delete (generateCacheKey pv sv)).1 }, true) := by
    unfold Adapter.update
    rw [if_pos hcond]
    rfl
  constructor
  · rw [hmain]
    refine ⟨rfl, ?_, ?_⟩
    · show List.lookup _ (mapDelete a.cache.cache (a.cache.buildKey _)) = none
      rw [lookup_mapDelete, if_pos (by simp)]
    · have hwf1 : (a.cache.delete (generateCacheKey pv sv)).1.WF :=
        a.cache.WF_delete_fst (generateCacheKey pv sv) hwf
      have habs : List.lookup
          ((a.cache.delete (generateCacheKey pv sv)).1.buildKey (generateCacheKey pv sv))
          (a.cache.delete (generateCacheKey pv sv)).1.cache = none := by
        show List.lookup (a.cache.buildKey (generateCacheKey pv sv))
          (mapDelete a.cache.cache (a.cache.buildKey (generateCacheKey pv sv))) = none
        rw [lookup_mapDelete, if_pos (by simp)]
      have hre : ((a.cache.delete (generateCacheKey pv sv)).1.get nowMs
          (generateCacheKey pv sv)).2 = none := by
        rw [LocalCache.get_snd_eq _ _ _ hwf1, habs]
      unfold Adapter.get Adapter.getCacheKey
      rw [hen, if_pos rfl]
      simp only [hre]
      cases remote pv sv <;> rfl
  · unfold Adapter.update
    rw [if_neg (by simp)]

/-- C5 witness: an enabled adapter holding a cached entry for `("p",
none)`; a successful `update` removes exactly that entry and the
following `get` performs one remote read. -/
theorem C5_witness :
    List.lookup "t:p"
      (((⟨⟨[("t:p", ⟨"t:p", [("pk", "p")], none⟩)], 0, 1800000, false, "t:"⟩,
          ⟨true, some 60⟩, "pk", none⟩ : Adapter).update true "p" none).1.cache.cache) =
      none ∧
    ((((⟨⟨[("t:p", ⟨"t:p", [("pk", "p")], none⟩)], 0, 1800000, false, "t:"⟩,
          ⟨true, some 60⟩, "pk", none⟩ : Adapter).update true "p" none).1.get
        (fun _ _ => none) 9 "p" none).2.2 = 1) := by
  have h := (C5_thm (⟨⟨[("t:p", ⟨"t:p", [("pk", "p")], none⟩)], 0, 1800000, false,
      "t:"⟩, ⟨true, some 60⟩, "pk", none⟩ : Adapter) (fun _ _ => none) 9 "p" none
    rfl (by simp [LocalCache.WF])).1
  exact ⟨h.2.1, h.2.2⟩

/-- C9, counterexample: the claim says clearCache/getCacheSize are
direct pass-throughs in EVERY adapter state — but both are gated on the
enabled flag: on a disabled adapter whose instance holds one entry,
`clearCache()` removes nothing and `getCacheSize()` returns 0 instead of
the instance's entry count 1. -/
theorem C9_counterexample :
    ((⟨⟨[("t:x", ⟨"t:x", [("pk", "x")], none⟩)], 0, 1800000, false, "t:"⟩,
        ⟨false, none⟩, "pk", none⟩ : Adapter).clearCache).cache.cache.length = 1 ∧
    ((⟨⟨[("t:x", ⟨"t:x", [("pk", "x")], none⟩)], 0, 1800000, false, "t:"⟩,
        ⟨false, none⟩, "pk", none⟩ : Adapter).getCacheSize 0).2 = 0 := by
  constructor <;> rfl

/-- C9 (amended): when caching is enabled, `clearCache()` empties the
adapter's own CacheInstance and `getCacheSize()` returns that instance's
entry count (`size()` after its conditional cleanup); when caching is
disabled, `clearCache()` is a no-op and `getCacheSize()` returns 0
without consulting the instance.  Neither operation involves the remote
store (neither takes a remote collaborator at all). -/
theorem C9_thm (a : Adapter) (nowMs : Nat) :
    (a.cacheConfig.enabled = true →
      (a.clearCache).cache.cache = [] ∧
      (a.getCacheSize nowMs).2 = (a.cache.size nowMs).2) ∧
    (a.cacheConfig.enabled = false →
      a.clearCache = a ∧ (a.getCacheSize nowMs).2 = 0) := by
  constructor
  · intro hen
    unfold Adapter.clearCache Adapter.getCacheSize
    rw [hen]
    exact ⟨rfl, rfl⟩
  · intro hdis
    unfold Adapter.clearCache Adapter.getCacheSize
    rw [hdis]
    exact ⟨rfl, rfl⟩

/-- C9 witness: on an enabled adapter with one stored entry, clearCache
empties the instance and getCacheSize reports its count. -/
theorem C9_witness :
    ((⟨⟨[("t:x", ⟨"t:x", [("pk", "x")], none⟩)], 0, 1800000, false, "t:"⟩,
        ⟨true, none⟩, "pk", none⟩ : Adapter).clearCache).cache.cache = [] ∧
    ((⟨⟨[("t:x", ⟨"t:x", [("pk", "x")], none⟩)], 0, 1800000, false, "t:"⟩,
        ⟨true, none⟩, "pk", none⟩ : Adapter).getCacheSize 0).2 =
      ((⟨[("t:x", ⟨"t:x", [("pk", "x")], none⟩)], 0, 1800000, false, "t:"⟩ :
        LocalCache Item).size 0).2 :=
  (C9_thm (⟨⟨[("t:x", ⟨"t:x", [("pk", "x")], none⟩)], 0, 1800000, false, "t:"⟩,
      ⟨true, none⟩, "pk", none⟩ : Adapter) 0).1 rfl

/-- C10: `setCacheEnabled(false)` changes only the enabled flag — the
backing CacheInstance and every other adapter field are untouched — and
after a later `setCacheEnabled(true)`, a `get` for a key that was cached
before disabling and is still live is served from the cache with zero
remote reads. -/
theorem C10_thm (a : Adapter) (remote : String → Option String → Option Item)
    (nowMs : Nat) (pv : String) (sv : Option String) (it : Item)
    (hcached : (a.cache.get nowMs (generateCacheKey pv sv)).2 = some it) :
    ((a.setCacheEnabled false).cache = a.cache ∧
     (a.setCacheEnabled false).partitionKey = a.partitionKey ∧
     (a.setCacheEnabled false).sortKey = a.sortKey ∧
     (a.setCacheEnabled false).cacheConfig.ttl = a.cacheConfig.ttl ∧
     (a.setCacheEnabled false).cacheConfig.enabled = false) ∧
    (((a.setCacheEnabled false).setCacheEnabled true).get remote nowMs pv sv).2 =
      (some it, 0) := by
  refine ⟨⟨rfl, rfl, rfl, rfl, rfl⟩, ?_⟩
  unfold Adapter.get Adapter.getCacheKey Adapter.setCacheEnabled
  simp [hcached]

/-- Each requested key lands in exactly one side of the `batchGet`
cache-probe partition: hits + misses = number of requested keys. -/
theorem partitionKeys_length (pk : String) (sk : Option String) (nowMs : Nat)
    (c : LocalCache Item) (keys : List Item) :
    (partitionKeys pk sk nowMs c keys).2.1.length +
      (partitionKeys pk sk nowMs c keys).2.2.length = keys.length := by
  induction keys generalizing c with
  | nil => rfl
  | cons key rest ih =>
      unfold partitionKeys
      cases h : (c.get nowMs (generateCacheKey (jsTemplate (List.lookup pk key))
          (sk.bind fun s => List.lookup s key))).2 with
      | some it =>
          simp only [h, List.length_cons]
          have := ih ((c.get nowMs (generateCacheKey (jsTemplate (List.lookup pk key))
            (sk.bind fun s => List.lookup s key))).1)
          omega
      | none =>
          simp only [h, List.length_cons]
          have := ih ((c.get nowMs (generateCacheKey (jsTemplate (List.lookup pk key))
            (sk.bind fun s => List.lookup s key))).1)
          omega

/-- C6: with caching enabled, `batchGet` over `keys` splits them into
cache hits and missing keys (each key lands in exactly one side, so with
`M` hits out of `N` keys there are `N − M` missing); when every key is a
hit no remote batch call is issued and the hits are returned; otherwise
exactly one remote batch call is issued containing exactly the missing
keys, every fetched item is written to the cache, and the returned list
is the cache hits followed by the fetched items (hits-then-misses, not
input order). -/
theorem C6_thm (a : Adapter) (remote : List Item → List Item) (nowMs : Nat)
    (keys : List Item) (hen : a.cacheConfig.enabled = true) :
    (partitionKeys a.partitionKey a.sortKey nowMs a.cache keys).2.1.length +
      (partitionKeys a.partitionKey a.sortKey nowMs a.cache keys).2.2.length =
      keys.length ∧
    ((partitionKeys a.partitionKey a.sortKey nowMs a.cache keys).2.2 = [] →
      (a.batchGet remote nowMs keys).2.2 = [] ∧
      (a.batchGet remote nowMs keys).2.1 =
        (partitionKeys a.partitionKey a.sortKey nowMs a.cache keys).2.1) ∧
    ((partitionKeys a.partitionKey a.sortKey nowMs a.cache keys).2.2 ≠ [] →
      (a.batchGet remote nowMs keys).2.2 =
        [(partitionKeys a.partitionKey a.sortKey nowMs a.cache keys).2.2] ∧
      (a.batchGet remote nowMs keys).2.1 =
        (partitionKeys a.partitionKey a.sortKey nowMs a.cache keys).2.1 ++
          remote (partitionKeys a.partitionKey a.sortKey nowMs a.cache keys).2.2 ∧
      (a.batchGet remote nowMs keys).1.cache =
        (remote (partitionKeys a.partitionKey a.sortKey nowMs a.cache keys).2.2).foldl
          (cacheWriteItem a.partitionKey a.sortKey a.cacheConfig.ttl nowMs)
          (partitionKeys a.partitionKey a.sortKey nowMs a.cache keys).1) := by
  refine ⟨partitionKeys_length _ _ _ _ _, ?_, ?_⟩
  · intro hm
    unfold Adapter.batchGet
    simp only [hen, if_true, hm, List.isEmpty_nil]
    exact ⟨by trivial, by trivial⟩
  · intro hm
    have hne : (partitionKeys a.partitionKey a.sortKey nowMs a.cache keys).2.2.isEmpty
        = false := by
      simp [List.isEmpty_iff, hm]
    unfold Adapter.batchGet
    simp only [hen, if_true, hne, Bool.false_eq_true, if_false]
    exact ⟨by trivial, by trivial, by trivial⟩

/-- C6 witness: two requested keys, one pre-cached and one missing — one
remote batch call containing exactly the missing key, both items
returned hits-first. -/
theorem C6_witness :
    ((⟨⟨[("t:x", ⟨"t:x", [("pk", "x")], none⟩)], 0, 1800000, false, "t:"⟩,
        ⟨true, some 60⟩, "pk", none⟩ : Adapter).batchGet
        (fun _ => [[("pk", "y")]]) 5 [[("pk", "x")], [("pk", "y")]]).2.2 =
      [[[("pk", "y")]]] ∧
    ((⟨⟨[("t:x", ⟨"t:x", [("pk", "x")], none⟩)], 0, 1800000, false, "t:"⟩,
        ⟨true, some 60⟩, "pk", none⟩ : Adapter).batchGet
        (fun _ => [[("pk", "y")]]) 5 [[("pk", "x")], [("pk", "y")]]).2.1 =
      [[("pk", "x")], [("pk", "y")]] := by
  have h := (C6_thm (⟨⟨[("t:x", ⟨"t:x", [("pk", "x")], none⟩)], 0, 1800000, false,
      "t:"⟩, ⟨true, some 60⟩, "pk", none⟩ : Adapter) (fun _ => [[("pk", "y")]]) 5
      [[("pk", "x")], [("pk", "y")]] rfl).2.2 (by decide)
  refine ⟨?_, ?_⟩
  · rw [h.1]
    rfl
  · rw [h.2.1]
    rfl

/-- C10 witness: an adapter whose cache holds a live entry for
`("p", none)`; after disable-then-enable, `get` returns it from cache
with zero remote reads. -/
theorem C10_witness :
    ((((⟨⟨[("t:p", ⟨"t:p", [("pk", "p")], none⟩)], 0, 1800000, false, "t:"⟩,
        ⟨true, some 60⟩, "pk", none⟩ : Adapter).setCacheEnabled false).setCacheEnabled
        true).get (fun _ _ => none) 5 "p" none).2 = (some [("pk", "p")], 0) :=
  (C10_thm (⟨⟨[("t:p", ⟨"t:p", [("pk", "p")], none⟩)], 0, 1800000, false, "t:"⟩,
      ⟨true, some 60⟩, "pk", none⟩ : Adapter) (fun _ _ => none) 5 "p" none
    [("pk", "p")] rfl).2
